import Mathlib

/-!
Verification development for the competitor-stack / marketing-plan polling
client. JavaScript strings are modelled as lists of characters, JSON values
as the inductive type `Json` below, and the relevant source functions are
translated as executable Lean definitions. Property access on values that
are not objects is modelled as yielding `Json.undefined` (matching the optional
chaining used at every call site that matters here).
-/

/-- The apostrophe character, used inside some matched error phrases. -/
def apos : Char := Char.ofNat 39

/-- Opening curly brace character. -/
def lbraceChar : Char := Char.ofNat 123

/-- Closing curly brace character. -/
def rbraceChar : Char := Char.ofNat 125

/-- JavaScript `String.prototype.toLowerCase` on a single ASCII character. -/
def lowerChar (c : Char) : Char :=
  if 'A' ≤ c ∧ c ≤ 'Z' then Char.ofNat (c.toNat + 32) else c

/-- JavaScript `String.prototype.toUpperCase` on a single ASCII character. -/
def upperChar (c : Char) : Char :=
  if 'a' ≤ c ∧ c ≤ 'z' then Char.ofNat (c.toNat - 32) else c

/-- JavaScript `toLowerCase` over a whole string. -/
def lowerStr (l : List Char) : List Char := l.map lowerChar

/-- JavaScript `String.prototype.includes`: substring containment. -/
def isSubstr (needle : List Char) : List Char → Bool
  | [] => needle.isEmpty
  | c :: rest => needle.isPrefixOf (c :: rest) || isSubstr needle rest

/-- Whitespace characters removed by JavaScript `String.prototype.trim`
(the ASCII ones; the sources only ever see ASCII input). -/
def isJsSpace (c : Char) : Bool :=
  c = ' ' || c = '\t' || c = '\n' || c = '\r' || c = Char.ofNat 11 || c = Char.ofNat 12

/-- JavaScript `String.prototype.trim`. -/
def jsTrim (l : List Char) : List Char :=
  ((l.dropWhile isJsSpace).reverse.dropWhile isJsSpace).reverse

/-- Decimal digits of a natural number, as characters. -/
def natChars (n : Nat) : List Char := (Nat.repr n).data

/-- `parseInt` on a plain run of decimal digits. -/
def digitsToNat (l : List Char) : Nat :=
  l.foldl (fun acc c => acc * 10 + (c.toNat - 48)) 0

/-- JSON/JavaScript values. `undefined` is JavaScript `undefined`, which is what
property access returns for a missing key. Object fields keep insertion
order; lookup takes the first binding with the requested name. -/
inductive Json where
  | null
  | undefined
  | bool (b : Bool)
  | num (n : Int)
  | str (s : List Char)
  | arr (elems : List Json)
  | obj (fields : List (List Char × Json))

/-- JavaScript truthiness of a value. -/
def truthy : Json → Bool
  | .null => false
  | .undefined => false
  | .bool b => b
  | .num n => !(n = 0)
  | .str s => !s.isEmpty
  | .arr _ => true
  | .obj _ => true

/-- `typeof v === "object"` for a non-null value (arrays and objects).
Callers in the sources always pair this with a truthiness test, so the
`null` case never matters and is returned as `false` here. -/
def jsTypeofObject : Json → Bool
  | .arr _ => true
  | .obj _ => true
  | _ => false

/-- `Array.isArray`. -/
def isArray : Json → Bool
  | .arr _ => true
  | _ => false

/-- The elements of an array value, empty for anything else. -/
def elemsOf : Json → List Json
  | .arr xs => xs
  | _ => []

/-- The field list of an object value, empty for anything else. -/
def fieldsOf : Json → List (List Char × Json)
  | .obj fs => fs
  | _ => []

/-- Property access `v[k]`: first binding of an object, `undefined`
otherwise (the sources only dereference non-objects behind optional
chaining or truthiness guards). -/
def getField : Json → List Char → Json
  | .obj fs, k =>
    match fs.find? (fun p => p.1 = k) with
    | some p => p.2
    | none => .undefined
  | _, _ => .undefined

/-- `Object.keys`: field names of an object, index strings of an array. -/
def keysOf : Json → List (List Char)
  | .obj fs => fs.map (·.1)
  | .arr xs => (List.range xs.length).map natChars
  | _ => []

/-- `key in v` (membership test used by the nested path walker). -/
def hasKey (j : Json) (k : List Char) : Bool :=
  (keysOf j).contains k

/-- `a || b` on JavaScript values. -/
def jsOr (a b : Json) : Json := if truthy a then a else b

/-- `v === "s"` for a string literal on the right. -/
def jsEqStr (j : Json) (s : List Char) : Bool :=
  match j with
  | .str t => t = s
  | _ => false

/-- String escaping used by `JSON.stringify` (the escapes that can occur
in the payloads under study). -/
def escapeJsonChar (c : Char) : List Char :=
  if c = '"' then ['\\', '"']
  else if c = '\\' then ['\\', '\\']
  else if c = '\n' then ['\\', 'n']
  else if c = '\t' then ['\\', 't']
  else if c = '\r' then ['\\', 'r']
  else [c]

/-- A quoted JSON string literal. -/
def quoteStr (s : List Char) : List Char :=
  '"' :: (s.flatMap escapeJsonChar) ++ ['"']

/-- Comma-join pieces of output. -/
def joinComma : List (List Char) → List Char
  | [] => []
  | [x] => x
  | x :: y :: rest => x ++ ',' :: joinComma (y :: rest)

mutual

/-- `JSON.stringify`. Object members whose value is `undefined` are
omitted; `undefined` appearing inside an array serializes as `null`. -/
def stringify : Json → List Char
  | .null => "null".data
  | .undefined => "null".data
  | .bool true => "true".data
  | .bool false => "false".data
  | .num n => (toString n).data
  | .str s => quoteStr s
  | .arr xs => '[' :: joinComma (stringifyList xs) ++ [']']
  | .obj fs => lbraceChar :: joinComma (stringifyFields fs) ++ [rbraceChar]

/-- `JSON.stringify` over the elements of an array. -/
def stringifyList : List Json → List (List Char)
  | [] => []
  | x :: xs => stringify x :: stringifyList xs

/-- `JSON.stringify` over the members of an object. -/
def stringifyFields : List (List Char × Json) → List (List Char)
  | [] => []
  | (_, .undefined) :: fs => stringifyFields fs
  | (k, v) :: fs => (quoteStr k ++ ':' :: stringify v) :: stringifyFields fs

end

/-! ## Polling utilities (`src/utils/pollingUtils` half of `languageDetection.ts`) -/

/-- The error patterns matched by `isInvalidConversationIdError`. -/
def invalidConversationIdPatterns : List (List Char) :=
  [ "no agent response".data,
    "no agent response found".data,
    "404".data,
    "conversation id".data,
    "invalid".data,
    "expired".data,
    "not found".data,
    "conversation not found".data,
    "does not exist".data,
    "couldn".data ++ apos :: "t process".data ]

/-- `isInvalidConversationIdError`: case-insensitive containment of any of
the invalid-conversation-id patterns; `false` for a missing message. -/
def isInvalidConversationIdError : Option (List Char) → Bool
  | none => false
  | some m =>
    invalidConversationIdPatterns.any (fun p => isSubstr (lowerStr p) (lowerStr m))

/-- `getProgressivePollingInterval`: three-tier staircase of polling
intervals in milliseconds. -/
def getProgressivePollingInterval (attemptNumber : Int) : Int :=
  if attemptNumber ≤ 10 then 10000
  else if attemptNumber ≤ 20 then 20000
  else 30000

/-- `shouldStopPolling`: stop immediately on the terminal
"no agent response found" pattern once one consecutive error is recorded,
and on any other invalid-conversation-id pattern unconditionally. -/
def shouldStopPolling (errorMessage : List Char) (consecutiveErrors : Nat) : Bool :=
  if isSubstr "no agent response found".data (lowerStr errorMessage) then
    decide (1 ≤ consecutiveErrors)
  else if isInvalidConversationIdError (some errorMessage) then true
  else false

/-! ## Response classifier (`src/services/api.ts` and `languageDetection.ts`) -/

/-- The apology/failure phrases looked for by `containsErrorMessage`. -/
def errorPhrases : List (List Char) :=
  [ "encountered an issue".data,
    "i".data ++ apos :: "m sorry".data,
    "couldn".data ++ apos :: "t analyze".data,
    "failed to analyze".data,
    "unable to".data,
    "error occurred".data,
    "invalid domain".data ]

/-- The content subtree used throughout the classifier:
`response.response?.data?.content || response.content`. -/
def classifierContent (response : Json) : Json :=
  jsOr (getField (getField (getField response "response".data) "data".data) "content".data)
       (getField response "content".data)

/-- `containsErrorMessage` from `api.ts`: any apology/failure phrase found
case-insensitively inside the textual content, or inside the
JSON-serialized content when the content is an object. -/
def containsErrorMessage (response : Json) : Bool :=
  if truthy response = false then false
  else
    match classifierContent response with
    | .str s => errorPhrases.any (fun p => isSubstr (lowerStr p) (lowerStr s))
    | c =>
      if jsTypeofObject c then
        errorPhrases.any (fun p => isSubstr (lowerStr p) (lowerStr (stringify c)))
      else false

/-- A key matching the regular expression `^program_\d+_details$`. -/
def matchProgramDetails (k : List Char) : Bool :=
  "program_".data.isPrefixOf k &&
    (let rest := k.drop 8
     let digits := rest.takeWhile Char.isDigit
     !digits.isEmpty && rest.drop digits.length = "_details".data)

/-- The strict content subtree `response.response?.data?.content`. -/
def strictContent (response : Json) : Json :=
  getField (getField (getField response "response".data) "data".data) "content".data

/-- `isAnalysisComplete` from `api.ts`: no embedded error message, a
terminal-success status, and minimum content structure (a non-empty
company summary plus either a non-empty programs list or a
program-details key). -/
def isAnalysisComplete (response : Json) : Bool :=
  if truthy response = false then false
  else if containsErrorMessage response then false
  else
    let hasValidStatus :=
      jsEqStr (getField response "status".data) "succeeded".data ||
      jsEqStr (getField response "status".data) "completed".data
    if !hasValidStatus then false
    else
      let content := strictContent response
      if truthy content = false then false
      else if !jsTypeofObject content || (keysOf content).length = 0 then false
      else
        let hasCompanySummary :=
          truthy (getField content "company_summary".data) &&
          jsTypeofObject (getField content "company_summary".data) &&
          0 < (keysOf (getField content "company_summary".data)).length
        let programsList := getField content "programs_list".data
        let hasProgramsList := truthy programsList
        let programsListValid :=
          if hasProgramsList then
            if isArray programsList then 0 < (elemsOf programsList).length
            else if jsTypeofObject programsList then 0 < (keysOf programsList).length
            else false
          else false
        let hasProgramDetails := (keysOf content).any matchProgramDetails
        hasCompanySummary && (programsListValid || hasProgramDetails)

/-- `hasMinimumContent` from `languageDetection.ts`: requires the strict
content subtree, then accepts a remote-reported `succeeded` status
outright, else looks for a company summary, a programs list that is an
array or map, or a program-details key. -/
def hasMinimumContent (response : Json) : Bool :=
  if truthy response = false || truthy (strictContent response) = false then false
  else if jsEqStr (getField response "status".data) "succeeded".data then true
  else
    let content := strictContent response
    let hasCompanySummary :=
      truthy (getField content "company_summary".data) &&
      jsTypeofObject (getField content "company_summary".data)
    let programsList := getField content "programs_list".data
    let hasProgramsList :=
      truthy programsList && (isArray programsList || jsTypeofObject programsList)
    let hasProgramDetails := (keysOf content).any matchProgramDetails
    hasCompanySummary || hasProgramsList || hasProgramDetails

/-! ## Competitor extraction (`src/hooks/useCompetitorStackData.tsx`) -/

/-- `extractCompetitors`: `none` models the JavaScript `null` return. -/
def extractCompetitors (response : Json) : Option (List Json) :=
  if truthy response = false || truthy (strictContent response) = false then none
  else
    let content := strictContent response
    if truthy (getField content "competitors".data) &&
       isArray (getField content "competitors".data) then
      some (elemsOf (getField content "competitors".data))
    else if truthy (getField content "competitor_list".data) &&
       isArray (getField content "competitor_list".data) then
      some (elemsOf (getField content "competitor_list".data))
    else if truthy (getField content "top_competitors".data) &&
       isArray (getField content "top_competitors".data) then
      some (elemsOf (getField content "top_competitors".data))
    else some [content]

/-! ## Plan normalizer (`parsePlanData` and helpers, `src/utils/parsePlanData.ts`) -/

/-- `extractCompanyName`: capitalized prefix of the domain before the
first dot; a missing or empty domain gives the fallback name. -/
def extractCompanyName : Option (List Char) → List Char
  | none => "Unknown Company".data
  | some d =>
    if d.isEmpty then "Unknown Company".data
    else
      match d.takeWhile (fun c => c ≠ '.') with
      | [] => []
      | c :: rest => upperChar c :: rest

/-- A domain parameter (string or `undefined`) as a JavaScript value. -/
def jsonOfDomain : Option (List Char) → Json
  | none => .undefined
  | some d => .str d

/-- The canonical company summary record built by `parseCompanySummary`.
Field values are JavaScript values; absent fields are `undefined`. -/
structure CompanySummary where
  name : Json
  website : Json
  activities : Json
  target : Json
  industry : Json
  target_audience : Json
  nb_employees : Json
  business_model : Json
  linkedin_scrape_status : Json
  customer_lifecycle_key_steps : Json

/-- `parseCompanySummary`: fallback record for missing data, otherwise
first-truthy-wins selection over alternate keys. -/
def parseCompanySummary (data : Json) (domain : Option (List Char)) : CompanySummary :=
  if truthy data = false || jsTypeofObject data = false then
    { name := .str (extractCompanyName domain),
      website := jsOr (jsonOfDomain domain) (.str "Unknown".data),
      activities := .str "Not specified".data,
      target := .str "Not specified".data,
      industry := .undefined,
      target_audience := .undefined,
      nb_employees := .undefined,
      business_model := .undefined,
      linkedin_scrape_status := .undefined,
      customer_lifecycle_key_steps := .undefined }
  else
    let activities :=
      jsOr (getField data "activities".data)
        (jsOr (getField data "industry".data) (.str "Not specified".data))
    let target :=
      jsOr (getField data "target".data)
        (jsOr (getField data "target_audience".data) (.str "Not specified".data))
    { name := jsOr (getField data "name".data) (.str (extractCompanyName domain)),
      website :=
        jsOr (getField data "website".data)
          (jsOr (jsonOfDomain domain) (.str "Unknown".data)),
      activities := activities,
      target := target,
      industry := jsOr (getField data "industry".data) activities,
      target_audience := jsOr (getField data "target_audience".data) target,
      nb_employees := getField data "nb_employees".data,
      business_model := getField data "business_model".data,
      linkedin_scrape_status := getField data "linkedin_scrape_status".data,
      customer_lifecycle_key_steps := getField data "customer_lifecycle_key_steps".data }

/-- One entry of the normalized programs list. -/
structure MarketingProgram where
  program_name : Json
  target : Json
  objective : Json
  kpi : Json
  description : Json
  scenarios : Option Json

/-- The per-entry mapping used by `parsePrograms` for both the array and
the object form of `programs_list`. -/
def mkProgram (program : Json) (index : Nat) : MarketingProgram :=
  { program_name :=
      jsOr (getField program "program_name".data)
        (jsOr (getField program "name".data)
          (.str ("Program ".data ++ natChars (index + 1)))),
    target := jsOr (getField program "target".data) (.str "Not specified".data),
    objective := jsOr (getField program "objective".data) (.str "Not specified".data),
    kpi := jsOr (getField program "kpi".data) (.str []),
    description := jsOr (getField program "description".data) (.str []),
    scenarios := none }

/-- `mkProgram` applied along a list with 0-based indices. -/
def mapPrograms : Nat → List Json → List MarketingProgram
  | _, [] => []
  | i, x :: xs => mkProgram x i :: mapPrograms (i + 1) xs

/-- The placeholder synthesized when no programs parse. -/
def placeholderProgram : MarketingProgram :=
  { program_name := .str "Marketing Program".data,
    target := .str "Not specified".data,
    objective := .str "Not specified".data,
    kpi := .str [],
    description := .str "No program details available".data,
    scenarios := none }

/-- UTF-16 code-unit comparison used by the default JavaScript
`Array.prototype.sort` on strings. -/
def strLtB : List Char → List Char → Bool
  | [], [] => false
  | [], _ :: _ => true
  | _ :: _, [] => false
  | a :: as, b :: bs =>
    if a.toNat < b.toNat then true
    else if b.toNat < a.toNat then false
    else strLtB as bs

/-- Insertion step of the key sort. -/
def insertSorted (k : List Char) : List (List Char) → List (List Char)
  | [] => [k]
  | x :: xs => if strLtB x k then x :: insertSorted k xs else k :: x :: xs

/-- `Array.prototype.sort()` over string keys. -/
def sortKeys (l : List (List Char)) : List (List Char) :=
  l.foldr insertSorted []

/-- The program-details enrichment for one matched `program_<N>_details`
key: overrides the name and attaches scenarios of the entry at position
`N - 1`, ignoring out-of-range indices. -/
def applyDetail (allContentData : Json) (programs : List MarketingProgram)
    (detailKey : List Char) : List MarketingProgram :=
  if matchProgramDetails detailKey then
    let n := digitsToNat ((detailKey.drop 8).takeWhile Char.isDigit)
    if 1 ≤ n ∧ n - 1 < programs.length then
      let details := getField allContentData detailKey
      if truthy details && jsTypeofObject details then
        let p := programs.getD (n - 1) placeholderProgram
        let nameOverride :=
          jsOr (getField details "program_name".data) (getField details "name".data)
        let p := if truthy nameOverride then { p with program_name := nameOverride } else p
        let p :=
          if truthy (getField details "scenarios".data)
          then { p with scenarios := some (getField details "scenarios".data) } else p
        programs.set (n - 1) p
      else programs
    else programs
  else programs

/-- `parsePrograms`: base list from the array or object form, placeholder
when empty, then the `program_<N>_details` enrichment pass. -/
def parsePrograms (data : Json) (allContentData : Json) : List MarketingProgram :=
  if truthy data = false then []
  else
    let base :=
      if isArray data then mapPrograms 0 (elemsOf data)
      else if jsTypeofObject data then mapPrograms 0 ((fieldsOf data).map (·.2))
      else []
    let programs := if base.isEmpty then [placeholderProgram] else base
    if truthy allContentData && jsTypeofObject allContentData then
      let detailsKeys := sortKeys ((keysOf allContentData).filter matchProgramDetails)
      detailsKeys.foldl (applyDetail allContentData) programs
    else programs

/-- One step of the nested path walker: descend only through truthy
objects that carry the key. -/
def followPath : Json → List (List Char) → Option Json
  | j, [] => some j
  | j, k :: rest =>
    if truthy j && jsTypeofObject j && hasKey j k
    then followPath (getField j k) rest
    else none

/-- `getNestedValue`: first path option that resolves, with the path used;
`(null, [])` when none resolves. -/
def getNestedValue (obj : Json) : List (List (List Char)) → Json × List (List Char)
  | [] => (.null, [])
  | p :: rest =>
    match followPath obj p with
    | some v => (v, p)
    | none => getNestedValue obj rest

/-- The content path options tried by `parsePlanData`, in order. The final
empty path makes the whole payload itself the last resort. -/
def contentPathOptions : List (List (List Char)) :=
  [ ["response".data, "data".data, "content".data],
    ["content".data],
    ["response".data, "data".data, "content".data, "json_response".data],
    ["content".data, "json_response".data],
    [] ]

/-- The normalized marketing plan produced by `parsePlanData`. -/
structure MarketingPlan where
  company_summary : CompanySummary
  programs_list : List MarketingProgram
  introduction : Json
  tools_used : Json
  conclusion : Json
  how_brevo_helps_you : List Json
  contentKeys : List (List Char)
  programDetailKeys : List (List Char)
  contentPath : List (List Char)
  metadata_conversation_id : Option Json

/-- `parsePlanData`: `none` models both the JavaScript `null` return for a
falsy payload and the thrown error for content that is not an object. -/
def parsePlanData (responseData : Json) (domain : Option (List Char)) : Option MarketingPlan :=
  if truthy responseData = false then none
  else
    let (content, contentPath) := getNestedValue responseData contentPathOptions
    if truthy content = false || jsTypeofObject content = false then none
    else
      let conversationId :=
        jsOr (getField (getField (getField (getField responseData "response".data) "data".data)
                "metadata".data) "conversation_id".data)
          (jsOr (getField (getField responseData "metadata".data) "conversation_id".data)
            (getField responseData "conversation_id".data))
      some
        { company_summary := parseCompanySummary (getField content "company_summary".data) domain,
          programs_list := parsePrograms (getField content "programs_list".data) content,
          introduction := jsOr (getField content "introduction".data) (.str []),
          tools_used := jsOr (getField content "tools_used".data) (.str []),
          conclusion := jsOr (getField content "conclusion".data) (.str []),
          how_brevo_helps_you :=
            if isArray (getField content "how_brevo_helps_you".data)
            then elemsOf (getField content "how_brevo_helps_you".data) else [],
          contentKeys := keysOf content,
          programDetailKeys :=
            (keysOf content).filter
              (fun k => isSubstr "program_".data k && isSubstr "details".data k),
          contentPath := contentPath,
          metadata_conversation_id :=
            if truthy conversationId then some conversationId else none }

/-! ## Key normalization (`marketingPlanService.ts` and `domainUtils.ts`) -/

/-- `replace(/^https?:\/\//, "")`: strip one leading protocol prefix. -/
def dropProto (l : List Char) : List Char :=
  if "http://".data.isPrefixOf l then l.drop 7
  else if "https://".data.isPrefixOf l then l.drop 8
  else l

/-- `replace(/\/.*$/, "")`: cut from the first slash whose entire
remaining suffix is newline-free (the dot of the regular expression does
not match newlines, and the match must reach the end of the string). -/
def cutSlash : List Char → List Char
  | [] => []
  | c :: rest =>
    if c = '/' && rest.all (fun x => x ≠ '\n') then []
    else c :: cutSlash rest

/-- `replace(/^www\./, "")`: strip one leading `www.` prefix. -/
def dropWww (l : List Char) : List Char :=
  if "www.".data.isPrefixOf l then l.drop 4 else l

/-- `normalizeDomain` from `marketingPlanService.ts`: strip protocol, then
path, then `www.`, then lower-case, then trim; empty input short-circuits. -/
def normalizeDomainMP (l : List Char) : List Char :=
  if l.isEmpty then []
  else jsTrim (lowerStr (dropWww (cutSlash (dropProto l))))

/-- `normalizeDomain` from `domainUtils.ts`: trim and lower-case first,
then strip protocol, path and `www.`. -/
def normalizeDomainDU (l : List Char) : List Char :=
  dropWww (cutSlash (dropProto (lowerStr (jsTrim l))))

/-! ## Consecutive not-found error counting (`useMarketingPlanData`) -/

/-- The not-found test of the polling catch block: case-insensitive
`no agent response` or a literal `404` in the error message. -/
def isNotFoundMessage (m : List Char) : Bool :=
  isSubstr "no agent response".data (lowerStr m) || isSubstr "404".data m

/-- `notFoundErrorThreshold` from `useMarketingPlanData`. -/
def notFoundErrorThreshold : Nat := 2

/-- The catch block of the polling function: a not-found error increments
the consecutive counter and stops polling at the threshold; any other
error resets the counter. Returns the new counter and the stop decision. -/
def pollCatchStep (msg : List Char) (counter : Nat) : Nat × Bool :=
  if isNotFoundMessage msg then
    (counter + 1, decide (counter + 1 ≥ notFoundErrorThreshold))
  else (0, false)

/-- One poll outcome as seen by the counter logic: a response that came
back (which resets the counter) or a thrown error message. -/
inductive PollOutcome where
  | success
  | failure (msg : List Char)

/-- The counter/stop state transition per outcome; once stopped, later
outcomes are not processed. -/
def stepOutcome (st : Nat × Bool) (o : PollOutcome) : Nat × Bool :=
  if st.2 then st
  else
    match o with
    | .success => (0, false)
    | .failure m => pollCatchStep m st.1

/-- The counter/stop state after a whole trace of poll outcomes. -/
def runPollErrors (trace : List PollOutcome) : Nat × Bool :=
  trace.foldl stepOutcome (0, false)

/-- Whether an outcome is a not-found error. -/
def isNF : PollOutcome → Bool
  | .success => false
  | .failure m => isNotFoundMessage m

/-- Whether a trace contains two adjacent not-found errors. -/
def hasAdjacentNotFound : List PollOutcome → Bool
  | a :: b :: rest => (isNF a && isNF b) || hasAdjacentNotFound (b :: rest)
  | _ => false

/-! ## Polling scheduler (`usePolling.executePoll`) -/

/-- Scheduler status values. -/
inductive PollStatus where
  | idle
  | polling
  | success
  | error
  | timeout
deriving DecidableEq

/-- Observable summary of one polling session: final status, number of
executed attempt bodies, and callback invocation counts. -/
structure PollRun where
  status : PollStatus
  attempts : Nat
  onSuccessCount : Nat
  onErrorCount : Nat
  onMaxCount : Nat
  hasSuccessfulResponse : Bool
deriving DecidableEq

/-- The completion test of `usePolling` on a fetched result. -/
def isCompletedResponse (r : Json) : Bool :=
  truthy r && jsTypeofObject r &&
    ((jsEqStr (getField r "status".data) "succeeded".data &&
        jsEqStr (getField (getField r "response".data) "state".data) "completed".data) ||
     jsEqStr (getField (getField r "response".data) "state".data) "completed".data ||
     (truthy (strictContent r) && 0 < (keysOf (strictContent r)).length))

/-- The `stopPolling` status update: `success` when a successful response
was seen, `idle` otherwise. -/
def stopStatus (acc : PollRun) : PollRun :=
  { acc with status := if acc.hasSuccessfulResponse then .success else .idle }

/-- `executePoll` unrolled over attempts. Per attempt: record the attempt,
honor the continue predicate, fetch, and either finish on a completed
response, finish with `timeout` and the max-attempts callback at the
attempt cap, or recurse into the next attempt. A thrown fetch sets the
`error` status and the error callback, then applies the same cap check.
The fuel argument bounds the recursion and is chosen large enough that it
is never exhausted before the cap. -/
def executePollAux (fetch : Nat → Except (List Char) Json)
    (shouldContinue : Nat → Bool) (maxAttempts : Nat) :
    Nat → Nat → PollRun → PollRun
  | 0, _, acc => acc
  | fuel + 1, attempt, acc =>
    let acc := { acc with attempts := acc.attempts + 1 }
    if shouldContinue attempt = false then stopStatus acc
    else
      match fetch attempt with
      | .ok result =>
        let completed := isCompletedResponse result
        let acc :=
          { acc with
            hasSuccessfulResponse := acc.hasSuccessfulResponse || completed,
            status := if completed then .success else .polling }
        if completed then { acc with onSuccessCount := acc.onSuccessCount + 1 }
        else if maxAttempts ≤ attempt then
          { acc with status := .timeout, onMaxCount := acc.onMaxCount + 1 }
        else if shouldContinue attempt = false then stopStatus acc
        else executePollAux fetch shouldContinue maxAttempts fuel (attempt + 1) acc
      | .error _ =>
        let acc := { acc with status := .error, onErrorCount := acc.onErrorCount + 1 }
        if maxAttempts ≤ attempt then
          { acc with status := .timeout, onMaxCount := acc.onMaxCount + 1 }
        else executePollAux fetch shouldContinue maxAttempts fuel (attempt + 1) acc

/-- A polling session started by `startPolling`: status `polling`, attempt
counter reset, first attempt numbered 1. -/
def executePollRun (fetch : Nat → Except (List Char) Json)
    (shouldContinue : Nat → Bool) (maxAttempts : Nat) : PollRun :=
  executePollAux fetch shouldContinue maxAttempts maxAttempts 1
    { status := .polling, attempts := 0, onSuccessCount := 0,
      onErrorCount := 0, onMaxCount := 0, hasSuccessfulResponse := false }

/-! ## Persistence (`saveMarketingPlan`, `handleSuccessfulPlan`) -/

/-- `isEmptyObject`: a truthy object-typed value with no keys. -/
def isEmptyObject (j : Json) : Bool :=
  truthy j && jsTypeofObject j && (keysOf j).length = 0

mutual

/-- `deepStructureClone`: structural clone of a value. On this pure value
model cloning rebuilds the same value; the definition mirrors the
recursion of the source. -/
def deepStructureClone : Json → Json
  | .null => .null
  | .undefined => .undefined
  | .bool b => .bool b
  | .num n => .num n
  | .str s => .str s
  | .arr xs => .arr (deepStructureCloneList xs)
  | .obj fs => .obj (deepStructureCloneFields fs)

/-- `deepStructureClone` over array elements. -/
def deepStructureCloneList : List Json → List Json
  | [] => []
  | x :: xs => deepStructureClone x :: deepStructureCloneList xs

/-- `deepStructureClone` over object members. -/
def deepStructureCloneFields : List (List Char × Json) → List (List Char × Json)
  | [] => []
  | (k, v) :: fs => (k, deepStructureClone v) :: deepStructureCloneFields fs

end

/-- One row of the `marketing_plans` table as written by the insert. -/
structure SavedRow where
  company_domain : List Char
  email : List Char
  form_data : Json
  user_language : List Char

/-- `saveMarketingPlan`: reject missing required fields, otherwise insert
one row carrying the deep-cloned payload. Returns the success flag and
the updated store. -/
def saveMarketingPlan (companyDomain email : List Char) (planData : Json)
    (userLanguage : List Char) (store : List SavedRow) : Bool × List SavedRow :=
  if companyDomain.isEmpty || email.isEmpty then (false, store)
  else
    (true,
     store ++
       [{ company_domain := companyDomain, email := email,
          form_data := deepStructureClone planData, user_language := userLanguage }])

/-- Replace the first binding of a key, or append it, as a JavaScript
object literal with a spread prefix does. -/
def setKey (fs : List (List Char × Json)) (k : List Char) (v : Json) :
    List (List Char × Json) :=
  if fs.any (fun p => p.1 = k) then
    fs.map (fun p => if p.1 = k then (k, v) else p)
  else fs ++ [(k, v)]

/-- The mutable pieces of one `useMarketingPlanData` session that the
success handler reads and writes. -/
structure Session where
  hasNavigated : Bool
  dataValidationPassed : Bool
  minimumTimeReached : Bool
  latestDomain : List Char
  conversationId : Json
  email : List Char
  userLanguage : List Char

/-- The payload assembled by `handleSuccessfulPlan` before saving:
`rawData.response.data` spread together with an enriched metadata object. -/
def dataToSaveOf (rawData : Json) (s : Session) (now : List Char) : Json :=
  .obj
    (setKey (fieldsOf (getField (getField rawData "response".data) "data".data))
      "metadata".data
      (.obj
        (setKey
          (setKey (fieldsOf (getField rawData "metadata".data))
            "conversation_id".data s.conversationId)
          "generated_at".data (.str now))))

/-- `handleSuccessfulPlan`: return early once navigation has happened,
reject empty or structurally incomplete parsed data, otherwise save when a
domain is known and latch `hasNavigated` only when the navigation
conditions (including the minimum-wait timer) hold. Returns the updated
session and store. -/
def handleSuccessfulPlan (parsedData rawData : Json) (now : List Char)
    (s : Session) (store : List SavedRow) : Session × List SavedRow :=
  if s.hasNavigated then (s, store)
  else if truthy parsedData = false || isEmptyObject parsedData then
    ({ s with dataValidationPassed := false }, store)
  else if truthy (getField parsedData "company_summary".data) = false ||
          truthy (getField parsedData "programs_list".data) = false ||
          (isArray (getField parsedData "programs_list".data) &&
            (elemsOf (getField parsedData "programs_list".data)).length = 0) then
    ({ s with dataValidationPassed := false }, store)
  else
    let s := { s with dataValidationPassed := true }
    if s.latestDomain.isEmpty then (s, store)
    else
      let store := (saveMarketingPlan s.latestDomain s.email
        (dataToSaveOf rawData s now) s.userLanguage store).2
      let shouldNavigate :=
        !s.hasNavigated && !s.latestDomain.isEmpty &&
          s.dataValidationPassed && s.minimumTimeReached
      (if shouldNavigate then { s with hasNavigated := true } else s, store)

/-! ## Spec-side definitions used to state amended claims -/

/-- Modelled from the amended claim wording for `hasMinimumContent`: the
content subtree must be present and truthy, and then either the remote
success status or one of the structural alternatives suffices. -/
def hasMinimumShapeSpec (response : Json) : Bool :=
  truthy (strictContent response) &&
    (jsEqStr (getField response "status".data) "succeeded".data ||
     (truthy (getField (strictContent response) "company_summary".data) &&
        jsTypeofObject (getField (strictContent response) "company_summary".data)) ||
     (truthy (getField (strictContent response) "programs_list".data) &&
        (isArray (getField (strictContent response) "programs_list".data) ||
         jsTypeofObject (getField (strictContent response) "programs_list".data))) ||
     (keysOf (strictContent response)).any matchProgramDetails)

/-- Whether the first outcome of a trace is a not-found error. -/
def headIsNF : List PollOutcome → Bool
  | [] => false
  | o :: _ => isNF o

/-- Modelled from the amended claim wording for the summary builder: the
first truthy value of the alternates, else the fallback. -/
def firstTruthyOr (vals : List Json) (fallback : Json) : Json :=
  match vals with
  | [] => fallback
  | v :: rest => if truthy v then v else firstTruthyOr rest fallback

/-- A string already in the normal form both domain normalizers produce on
ordinary input: no slash, no leading `www.`, trim-fixed and lower-fixed. -/
def domNormalFixed (t : List Char) : Prop :=
  t.all (fun c => c ≠ '/') = true ∧
  "www.".data.isPrefixOf t = false ∧
  jsTrim t = t ∧
  lowerStr t = t

/-- The parsed-payload guard of `handleSuccessfulPlan`, as one predicate:
non-empty data carrying a company summary and a non-empty programs list. -/
def validPlanPayload (p : Json) : Bool :=
  truthy p && !isEmptyObject p &&
  truthy (getField p "company_summary".data) &&
  truthy (getField p "programs_list".data) &&
  !(isArray (getField p "programs_list".data) &&
    (elemsOf (getField p "programs_list".data)).length = 0)

/-- A parsed plan payload that passes the success-handler validation. -/
def planPayloadA : Json :=
  .obj
    [ ("company_summary".data, .obj [("name".data, .str "Acme".data)]),
      ("programs_list".data, .arr [.obj [("program_name".data, .str "X".data)]]) ]

/-- A raw response payload used alongside `planPayloadA`. -/
def rawPayloadA : Json :=
  .obj
    [ ("response".data,
        .obj [("data".data, .obj [("content".data, .obj [("a".data, .num 1)])])]) ]

/-- A session that has not yet navigated and whose minimum-wait timer has
not yet fired. -/
def sessionA : Session :=
  { hasNavigated := false, dataValidationPassed := false, minimumTimeReached := false,
    latestDomain := "acme.com".data, conversationId := .str "c123".data,
    email := "user@acme.com".data, userLanguage := "en".data }

/-! ## Helper lemmas -/

/-- A falsy value has an undefined `response.data.content` subtree. -/
theorem strictContent_of_falsy (r : Json) (h : truthy r = false) :
    strictContent r = Json.undefined := by
  cases r <;> first | rfl | simp [truthy] at h

/-- A truthy content subtree forces the whole response to be truthy. -/
theorem truthy_of_truthy_strictContent (r : Json)
    (h : truthy (strictContent r) = true) : truthy r = true := by
  by_contra hfalse
  have hf : truthy r = false := by simpa using hfalse
  rw [strictContent_of_falsy r hf] at h
  simp [truthy] at h

/-- Arrays are always truthy JavaScript values. -/
theorem truthy_of_isArray (j : Json) (h : isArray j = true) : truthy j = true := by
  cases j <;> first | rfl | simp [isArray] at h

/-- C9: the progressive interval policy is the 10s/20s/30s staircase over
attempts 1-10, 11-20 and 21+, it is non-decreasing, the attempt-1 value
does not exceed the attempt-11 value, and non-positive attempts yield the
attempt-1 value. -/
theorem claim9_interval_staircase :
    (∀ a : Int, 1 ≤ a → a ≤ 10 → getProgressivePollingInterval a = 10000) ∧
    (∀ a : Int, 11 ≤ a → a ≤ 20 → getProgressivePollingInterval a = 20000) ∧
    (∀ a : Int, 21 ≤ a → getProgressivePollingInterval a = 30000) ∧
    (∀ a b : Int, 1 ≤ a → a ≤ b →
      getProgressivePollingInterval a ≤ getProgressivePollingInterval b) ∧
    getProgressivePollingInterval 1 ≤ getProgressivePollingInterval 11 ∧
    (∀ a : Int, a ≤ 0 → getProgressivePollingInterval a = getProgressivePollingInterval 1) := by
  refine ⟨?_, ?_, ?_, ?_, ?_, ?_⟩
  · intro a h1 h2
    unfold getProgressivePollingInterval
    split_ifs
    all_goals omega
  · intro a h1 h2
    unfold getProgressivePollingInterval
    split_ifs
    all_goals omega
  · intro a h1
    unfold getProgressivePollingInterval
    split_ifs
    all_goals omega
  · intro a b h1 h2
    unfold getProgressivePollingInterval
    split_ifs
    all_goals omega
  · decide
  · intro a h1
    unfold getProgressivePollingInterval
    split_ifs
    all_goals omega

/-- C9 witness: the staircase theorem applied at attempts 5, 15, 25 and 0. -/
theorem claim9_witness :
    getProgressivePollingInterval 5 = 10000 ∧
    getProgressivePollingInterval 15 = 20000 ∧
    getProgressivePollingInterval 25 = 30000 ∧
    getProgressivePollingInterval 0 = getProgressivePollingInterval 1 :=
  ⟨claim9_interval_staircase.1 5 (by decide) (by decide),
   claim9_interval_staircase.2.1 15 (by decide) (by decide),
   claim9_interval_staircase.2.2.1 25 (by decide),
   claim9_interval_staircase.2.2.2.2.2 0 (by decide)⟩

/-- C4: whenever the content of a response contains one of the known
apology/failure phrases (case-insensitively, in the textual or
JSON-serialized content), `isAnalysisComplete` returns `false`, whatever
the status field says. -/
theorem claim4_error_message_blocks_completion (r : Json)
    (h : containsErrorMessage r = true) : isAnalysisComplete r = false := by
  have ht : truthy r = true := by
    by_contra hfalse
    have hf : truthy r = false := by simpa using hfalse
    simp [containsErrorMessage, hf] at h
  simp [isAnalysisComplete, ht, h]

/-- C4 witness: a response with status `succeeded` whose content says the
analysis could not be done is classified as not complete. -/
theorem claim4_witness :
    containsErrorMessage
      (.obj [("status".data, .str "succeeded".data),
        ("response".data, .obj [("data".data,
          .obj [("content".data, .str "We were unable to analyze this domain".data)])])]) = true ∧
    isAnalysisComplete
      (.obj [("status".data, .str "succeeded".data),
        ("response".data, .obj [("data".data,
          .obj [("content".data, .str "We were unable to analyze this domain".data)])])]) = false :=
  ⟨by decide, claim4_error_message_blocks_completion _ (by decide)⟩

/-- C5 counterexample: a payload whose status is `succeeded` but that has
no content subtree; the claim requires `hasMinimumContent` to accept it on
the status alone, yet the function returns `false`. -/
theorem claim5_counterexample :
    getField (Json.obj [("status".data, Json.str "succeeded".data)]) "status".data =
      Json.str "succeeded".data ∧
    hasMinimumContent (Json.obj [("status".data, Json.str "succeeded".data)]) = false :=
  ⟨rfl, rfl⟩

/-- C5 (amended): `hasMinimumContent` accepts a payload exactly when the
content subtree at `response.response.data.content` is present and truthy
and, in addition, either the status is the remote success value or the
content has a summary-shaped object, a programs list that is an array or
map (possibly empty), or a `program_<N>_details` key. -/
theorem claim5_min_shape_characterization (r : Json) :
    hasMinimumContent r = hasMinimumShapeSpec r := by
  by_cases h1 : truthy r = true
  · by_cases h2 : truthy (strictContent r) = true
    · by_cases hs : jsEqStr (getField r "status".data) "succeeded".data = true
      · simp [hasMinimumContent, hasMinimumShapeSpec, h1, h2, hs]
      · have hs' : jsEqStr (getField r "status".data) "succeeded".data = false := by
          simpa using hs
        simp [hasMinimumContent, hasMinimumShapeSpec, h1, h2, hs']
    · have h2f : truthy (strictContent r) = false := by simpa using h2
      simp [hasMinimumContent, hasMinimumShapeSpec, h1, h2f]
  · have h1f : truthy r = false := by simpa using h1
    have hc := strictContent_of_falsy r h1f
    simp [hasMinimumContent, hasMinimumShapeSpec, h1f, hc, truthy]

/-- C10 counterexample: a response whose content subtree is present (an
empty string) still yields `null` from `extractCompetitors`, so the result
is not `null` exactly when the content is absent. -/
theorem claim10_counterexample :
    extractCompetitors
      (Json.obj [("response".data, Json.obj [("data".data,
        Json.obj [("content".data, Json.str [])])])]) = none ∧
    strictContent
      (Json.obj [("response".data, Json.obj [("data".data,
        Json.obj [("content".data, Json.str [])])])]) = Json.str [] ∧
    Json.str [] ≠ Json.undefined :=
  ⟨rfl, rfl, fun h => Json.noConfusion h⟩

/-- C10 (amended): `extractCompetitors` returns `null` exactly when the
response or its content subtree is falsy (absent, null, false, zero or the
empty string); otherwise it returns the first of `content.competitors`,
`content.competitor_list`, `content.top_competitors` that is an array, in
that priority order; and when none of the three is an array the result is
the one-element list holding the content. -/
theorem claim10_extract_competitors (r : Json) :
    (extractCompetitors r = none ↔
      (truthy r = false ∨ truthy (strictContent r) = false)) ∧
    (truthy (strictContent r) = true →
      isArray (getField (strictContent r) "competitors".data) = true →
      extractCompetitors r =
        some (elemsOf (getField (strictContent r) "competitors".data))) ∧
    (truthy (strictContent r) = true →
      isArray (getField (strictContent r) "competitors".data) = false →
      isArray (getField (strictContent r) "competitor_list".data) = true →
      extractCompetitors r =
        some (elemsOf (getField (strictContent r) "competitor_list".data))) ∧
    (truthy (strictContent r) = true →
      isArray (getField (strictContent r) "competitors".data) = false →
      isArray (getField (strictContent r) "competitor_list".data) = false →
      isArray (getField (strictContent r) "top_competitors".data) = true →
      extractCompetitors r =
        some (elemsOf (getField (strictContent r) "top_competitors".data))) ∧
    (truthy (strictContent r) = true →
      isArray (getField (strictContent r) "competitors".data) = false →
      isArray (getField (strictContent r) "competitor_list".data) = false →
      isArray (getField (strictContent r) "top_competitors".data) = false →
      extractCompetitors r = some [strictContent r]) := by
  refine ⟨⟨?_, ?_⟩, ?_, ?_, ?_, ?_⟩
  · intro h
    by_contra hcon
    push_neg at hcon
    obtain ⟨ha, hb⟩ := hcon
    have h1 : truthy r = true := by simpa using ha
    have h2 : truthy (strictContent r) = true := by simpa using hb
    simp only [extractCompetitors, h1, h2] at h
    norm_num at h
    split_ifs at h
  · intro h
    rcases h with h | h
    · simp [extractCompetitors, h]
    · simp [extractCompetitors, h]
  · intro h2 hA
    have h1 : truthy r = true := truthy_of_truthy_strictContent r h2
    have htA : truthy (getField (strictContent r) "competitors".data) = true :=
      truthy_of_isArray _ hA
    simp [extractCompetitors, h1, h2, hA, htA]
  · intro h2 hA hB
    have h1 : truthy r = true := truthy_of_truthy_strictContent r h2
    have htB : truthy (getField (strictContent r) "competitor_list".data) = true :=
      truthy_of_isArray _ hB
    simp [extractCompetitors, h1, h2, hA, hB, htB]
  · intro h2 hA hB hC
    have h1 : truthy r = true := truthy_of_truthy_strictContent r h2
    have htC : truthy (getField (strictContent r) "top_competitors".data) = true :=
      truthy_of_isArray _ hC
    simp [extractCompetitors, h1, h2, hA, hB, hC, htC]
  · intro h2 hA hB hC
    have h1 : truthy r = true := truthy_of_truthy_strictContent r h2
    simp [extractCompetitors, h1, h2, hA, hB, hC]

/-- C10 witness: a content carrying a `competitors` array yields exactly
that array even when a `competitor_list` array is also present, and a
truthy content with no recognized competitor array is wrapped as a
singleton list by `extractCompetitors`. -/
theorem claim10_witness :
    extractCompetitors
      (Json.obj [("response".data, Json.obj [("data".data,
        Json.obj [("content".data, Json.obj
          [("competitors".data, Json.arr [Json.str "rival".data]),
           ("competitor_list".data, Json.arr [Json.str "other".data])])])])]) =
      some [Json.str "rival".data] ∧
    extractCompetitors
      (Json.obj [("response".data, Json.obj [("data".data,
        Json.obj [("content".data, Json.obj [("a".data, Json.num 1)])])])]) =
      some [strictContent
        (Json.obj [("response".data, Json.obj [("data".data,
          Json.obj [("content".data, Json.obj [("a".data, Json.num 1)])])])])] :=
  ⟨((claim10_extract_competitors
      (Json.obj [("response".data, Json.obj [("data".data,
        Json.obj [("content".data, Json.obj
          [("competitors".data, Json.arr [Json.str "rival".data]),
           ("competitor_list".data, Json.arr [Json.str "other".data])])])])])).2.1
      (by rfl) (by rfl)).trans (by rfl),
   (claim10_extract_competitors
      (Json.obj [("response".data, Json.obj [("data".data,
        Json.obj [("content".data, Json.obj [("a".data, Json.num 1)])])])])).2.2.2.2
      (by rfl) (by rfl) (by rfl) (by rfl)⟩

/-- A stopped counter state absorbs any further outcome. -/
theorem stepOutcome_stopped (st : Nat × Bool) (o : PollOutcome) (h : st.2 = true) :
    stepOutcome st o = st := by
  simp [stepOutcome, h]

/-- A stopped counter state absorbs any further trace. -/
theorem foldl_stepOutcome_stopped (trace : List PollOutcome) (st : Nat × Bool)
    (h : st.2 = true) : trace.foldl stepOutcome st = st := by
  induction trace with
  | nil => rfl
  | cons o rest ih =>
    rw [List.foldl_cons, stepOutcome_stopped st o h]
    exact ih

/-- Head unfolding of the adjacent not-found test. -/
theorem hasAdjacentNotFound_cons (a : PollOutcome) (l : List PollOutcome) :
    hasAdjacentNotFound (a :: l) = (isNF a && headIsNF l || hasAdjacentNotFound l) := by
  cases l <;> simp [hasAdjacentNotFound, headIsNF]

/-- The counter run stops from counter 0 exactly on an adjacent not-found
pair, and from counter 1 exactly on a leading not-found outcome or an
adjacent pair. -/
theorem runPollErrors_aux (trace : List PollOutcome) :
    (trace.foldl stepOutcome (0, false)).2 = hasAdjacentNotFound trace ∧
    (trace.foldl stepOutcome (1, false)).2 = (headIsNF trace || hasAdjacentNotFound trace) := by
  induction trace with
  | nil => simp [hasAdjacentNotFound, headIsNF]
  | cons o rest ih =>
    constructor
    · rw [List.foldl_cons]
      cases o with
      | success =>
        have hst : stepOutcome (0, false) PollOutcome.success = (0, false) := rfl
        rw [hst, ih.1, hasAdjacentNotFound_cons]
        simp [isNF]
      | failure m =>
        by_cases hm : isNotFoundMessage m = true
        · have hst : stepOutcome (0, false) (PollOutcome.failure m) = (1, false) := by
            simp [stepOutcome, pollCatchStep, hm, notFoundErrorThreshold]
          rw [hst, ih.2, hasAdjacentNotFound_cons]
          simp [isNF, hm]
        · have hmf : isNotFoundMessage m = false := by simpa using hm
          have hst : stepOutcome (0, false) (PollOutcome.failure m) = (0, false) := by
            simp [stepOutcome, pollCatchStep, hmf]
          rw [hst, ih.1, hasAdjacentNotFound_cons]
          simp [isNF, hmf]
    · rw [List.foldl_cons]
      cases o with
      | success =>
        have hst : stepOutcome (1, false) PollOutcome.success = (0, false) := rfl
        rw [hst, ih.1, hasAdjacentNotFound_cons]
        simp [headIsNF, isNF]
      | failure m =>
        by_cases hm : isNotFoundMessage m = true
        · have hst : stepOutcome (1, false) (PollOutcome.failure m) = (2, true) := by
            simp [stepOutcome, pollCatchStep, hm, notFoundErrorThreshold]
          rw [hst, foldl_stepOutcome_stopped rest (2, true) rfl]
          simp [headIsNF, isNF, hm]
        · have hmf : isNotFoundMessage m = false := by simpa using hm
          have hst : stepOutcome (1, false) (PollOutcome.failure m) = (0, false) := by
            simp [stepOutcome, pollCatchStep, hmf]
          rw [hst, ih.1, hasAdjacentNotFound_cons]
          simp [headIsNF, isNF, hmf]

/-- C1 counterexample: the first occurrence of the terminal
`No agent response found` error leaves the polling hook running (counter 1,
threshold 2), while `shouldStopPolling` already stops a 404-style message
at one consecutive occurrence, so neither half of the claim matches the
code. -/
theorem claim1_counterexample :
    stepOutcome (0, false) (PollOutcome.failure "Error: No agent response found".data) =
      (1, false) ∧
    shouldStopPolling "Server error: 404 - Not Found".data 1 = true := by
  constructor
  · decide
  · decide

/-- C1 (amended): `shouldStopPolling` stops on the terminal pattern once
one consecutive error is recorded and stops on any other
invalid-conversation-id pattern regardless of the count; the polling hook
itself counts `no agent response` and `404` errors in one shared
consecutive counter with threshold 2, stopping exactly when two adjacent
outcomes of a session trace are such errors, and resetting the counter on
a successful response or a non-matching error. -/
theorem claim1_stop_conditions :
    (∀ m n, isSubstr "no agent response found".data (lowerStr m) = true →
      shouldStopPolling m n = decide (1 ≤ n)) ∧
    (∀ m n, isSubstr "no agent response found".data (lowerStr m) = false →
      isInvalidConversationIdError (some m) = true → shouldStopPolling m n = true) ∧
    (∀ trace, (runPollErrors trace).2 = hasAdjacentNotFound trace) ∧
    (∀ c m, isNotFoundMessage m = false →
      stepOutcome (c, false) (PollOutcome.failure m) = (0, false)) ∧
    (∀ c, stepOutcome (c, false) PollOutcome.success = (0, false)) := by
  refine ⟨?_, ?_, ?_, ?_, ?_⟩
  · intro m n h
    simp [shouldStopPolling, h]
  · intro m n h1 h2
    simp [shouldStopPolling, h1, h2]
  · intro trace
    exact (runPollErrors_aux trace).1
  · intro c m h
    simp [stepOutcome, pollCatchStep, h]
  · intro c
    rfl

/-- C1 witness: the amended stop conditions applied to a concrete terminal
message at count 1 and a concrete expired-conversation message at count 0. -/
theorem claim1_witness :
    shouldStopPolling "No agent response found".data 1 = true ∧
    shouldStopPolling "conversation expired".data 0 = true :=
  ⟨(claim1_stop_conditions.1 "No agent response found".data 1 (by decide)).trans (by decide),
   claim1_stop_conditions.2.1 "conversation expired".data 0 (by decide) (by decide)⟩

/-- C8 counterexample: a summary whose `target` holds the literal string
`Not specified` with a real `target_audience` behind it; the claim says
the alternate value must win, but the builder keeps the first truthy
value, which here is `Not specified`. -/
theorem claim8_counterexample :
    (parseCompanySummary
      (Json.obj [("target".data, Json.str "Not specified".data),
                 ("target_audience".data, Json.str "Developers".data)])
      (some "acme.com".data)).target = Json.str "Not specified".data ∧
    Json.str "Not specified".data ≠ Json.str "Developers".data := by
  constructor
  · rfl
  · intro h
    injection h with h2
    exact absurd h2 (by decide)

/-- C8 (amended): each summary field takes the first truthy value from
its ordered alternate keys (a present `Not specified` string is truthy
and is kept), substituting the `Not specified` placeholder only when no
alternate is truthy; the name field falls back to the capitalized prefix
of the domain before the first dot. -/
theorem claim8_summary_fields :
    (∀ data domain, truthy data = true → jsTypeofObject data = true →
      (parseCompanySummary data domain).target =
        firstTruthyOr [getField data "target".data, getField data "target_audience".data]
          (Json.str "Not specified".data) ∧
      (parseCompanySummary data domain).activities =
        firstTruthyOr [getField data "activities".data, getField data "industry".data]
          (Json.str "Not specified".data) ∧
      (parseCompanySummary data domain).name =
        firstTruthyOr [getField data "name".data] (Json.str (extractCompanyName domain))) ∧
    (∀ (c : Char) (rest : List Char), c ≠ '.' →
      extractCompanyName (some (c :: rest)) =
        upperChar c :: rest.takeWhile (fun x => x ≠ '.')) := by
  constructor
  · intro data domain h1 h2
    refine ⟨?_, ?_, ?_⟩ <;> simp [parseCompanySummary, h1, h2, firstTruthyOr, jsOr]
  · intro c rest h
    simp [extractCompanyName, List.takeWhile_cons, h]

/-- C8 witness: with no `target` key the `target_audience` alternate is
taken, and the name fallback capitalizes the prefix of `acme.com`. -/
theorem claim8_witness :
    (parseCompanySummary (Json.obj [("target_audience".data, Json.str "Developers".data)])
      (some "acme.com".data)).target = Json.str "Developers".data ∧
    extractCompanyName (some "acme.com".data) = "Acme".data :=
  ⟨((claim8_summary_fields.1
      (Json.obj [("target_audience".data, Json.str "Developers".data)])
      (some "acme.com".data) rfl rfl).1).trans (by rfl),
   (claim8_summary_fields.2 'a' "cme.com".data (by decide)).trans (by rfl)⟩

/-- The details-enrichment pass never changes the length of the list. -/
theorem length_applyDetail (a : Json) (ps : List MarketingProgram) (k : List Char) :
    (applyDetail a ps k).length = ps.length := by
  unfold applyDetail
  dsimp only
  split_ifs <;> simp [List.length_set]

/-- Folding the enrichment pass over any key list preserves the length. -/
theorem length_foldl_applyDetail (a : Json) (keys : List (List Char)) :
    ∀ ps : List MarketingProgram, (keys.foldl (applyDetail a) ps).length = ps.length := by
  induction keys with
  | nil => intro ps; rfl
  | cons k ks ih =>
    intro ps
    rw [List.foldl_cons, ih, length_applyDetail]

/-- C3 counterexample: the payload `{}` is accepted by the normalizer (the
empty content path resolves to the payload itself), yet its programs list
comes out empty because an absent `programs_list` short-circuits before
the placeholder is synthesized. -/
theorem claim3_counterexample :
    (parsePlanData (Json.obj []) none).isSome = true ∧
    (parsePlanData (Json.obj []) none).map (fun p => p.programs_list.length) = some 0 :=
  ⟨rfl, rfl⟩

/-- C3 (amended): whenever `programs_list` is present and truthy the
normalized items list has at least one entry, and the empty-map payload of
scenario D yields exactly the one synthesized placeholder item named
`Marketing Program`; but an absent or falsy `programs_list` yields the
empty list. -/
theorem claim3_programs_nonempty :
    (∀ data allContent, truthy data = true → 1 ≤ (parsePrograms data allContent).length) ∧
    ((parsePlanData (Json.obj [("content".data,
        Json.obj [("programs_list".data, Json.obj [])])]) none).map
      (fun p => p.programs_list) = some [placeholderProgram]) ∧
    (∀ allContent, parsePrograms Json.undefined allContent = []) := by
  refine ⟨?_, by rfl, fun allContent => rfl⟩
  intro data allContent h
  have hbase : ∀ l : List MarketingProgram,
      1 ≤ (if l.isEmpty then [placeholderProgram] else l).length := by
    intro l
    cases l with
    | nil => simp
    | cons x xs => simp
  unfold parsePrograms
  rw [if_neg (by simp [h])]
  dsimp only
  by_cases hc : (truthy allContent && jsTypeofObject allContent) = true
  · rw [if_pos hc, length_foldl_applyDetail]
    exact hbase _
  · rw [if_neg hc]
    exact hbase _

/-- C3 witness: the amended lower bound applied to the empty-map programs
list of a concrete content object. -/
theorem claim3_witness :
    1 ≤ (parsePrograms (Json.obj []) (Json.obj [("programs_list".data, Json.obj [])])).length :=
  claim3_programs_nonempty.1 (Json.obj []) (Json.obj [("programs_list".data, Json.obj [])]) rfl

/-- The normal-form test is decidable, so witnesses can be checked by
evaluation. -/
instance domNormalFixed_decidable (t : List Char) : Decidable (domNormalFixed t) := by
  unfold domNormalFixed
  infer_instance

/-- A prefix containing a slash cannot start a slash-free string. -/
theorem noSlash_isPrefixOf_false (pre t : List Char) (hs : '/' ∈ pre)
    (h : ∀ c ∈ t, c ≠ '/') : pre.isPrefixOf t = false := by
  by_contra hcon
  have hp : pre.isPrefixOf t = true := by simpa using hcon
  have hpre : pre <+: t := List.isPrefixOf_iff_prefix.mp hp
  exact h '/' (hpre.subset hs) rfl

/-- The path cut is the identity on slash-free strings. -/
theorem cutSlash_of_noSlash (t : List Char) (h : ∀ c ∈ t, c ≠ '/') : cutSlash t = t := by
  induction t with
  | nil => rfl
  | cons c rest ih =>
    have hc : c ≠ '/' := h c (List.mem_cons_self c rest)
    have hrest : ∀ x ∈ rest, x ≠ '/' := fun x hx => h x (List.mem_cons_of_mem c hx)
    unfold cutSlash
    rw [if_neg (by simp [hc]), ih hrest]

/-- Both domain normalizers are the identity on strings in normal form. -/
theorem domainNorm_fixpoint (t : List Char) (h : domNormalFixed t) :
    normalizeDomainMP t = t ∧ normalizeDomainDU t = t := by
  obtain ⟨hslash, hwww, htrim, hlower⟩ := h
  have hmem : ∀ c ∈ t, c ≠ '/' := by
    intro c hc
    simpa using List.all_eq_true.mp hslash c hc
  have hp1 : "http://".data.isPrefixOf t = false :=
    noSlash_isPrefixOf_false _ t (by decide) hmem
  have hp2 : "https://".data.isPrefixOf t = false :=
    noSlash_isPrefixOf_false _ t (by decide) hmem
  have hproto : dropProto t = t := by
    unfold dropProto
    rw [if_neg (by simp [hp1]), if_neg (by simp [hp2])]
  have hcut : cutSlash t = t := cutSlash_of_noSlash t hmem
  have hwwwEq : dropWww t = t := by
    unfold dropWww
    rw [if_neg (by simp [hwww])]
  constructor
  · unfold normalizeDomainMP
    by_cases he : t.isEmpty = true
    · have ht : t = [] := by simpa [List.isEmpty_iff] using he
      rw [if_pos he, ht]
    · rw [if_neg he, hproto, hcut, hwwwEq, hlower, htrim]
  · unfold normalizeDomainDU
    rw [htrim, hlower, hproto, hcut, hwwwEq]

/-- C6 counterexample: the input `www.www.a` breaks idempotence for both
implementations of `normalizeDomain`, because each pass strips only one
`www.` prefix. -/
theorem claim6_counterexample :
    normalizeDomainMP (normalizeDomainMP "www.www.a".data) ≠
      normalizeDomainMP "www.www.a".data ∧
    normalizeDomainDU (normalizeDomainDU "www.www.a".data) ≠
      normalizeDomainDU "www.www.a".data := by
  constructor
  · decide
  · decide

/-- C6 (amended): both normalizers are idempotent on every input whose
normalized form is in normal form, that is, slash-free, not starting with
`www.`, trim-fixed and lower-case; inputs whose normalized form still
starts with `www.` (such as `www.www.a`) are normalized differently by a
second pass. -/
theorem claim6_idempotent_on_normal_forms (s : List Char) :
    (domNormalFixed (normalizeDomainMP s) →
      normalizeDomainMP (normalizeDomainMP s) = normalizeDomainMP s) ∧
    (domNormalFixed (normalizeDomainDU s) →
      normalizeDomainDU (normalizeDomainDU s) = normalizeDomainDU s) :=
  ⟨fun h => (domainNorm_fixpoint _ h).1, fun h => (domainNorm_fixpoint _ h).2⟩

/-- C6 witness: ordinary URL-shaped inputs normalize to a normal form and
are then idempotent under both implementations. -/
theorem claim6_witness :
    domNormalFixed (normalizeDomainMP "http://www.Example.com/About".data) ∧
    normalizeDomainMP (normalizeDomainMP "http://www.Example.com/About".data) =
      normalizeDomainMP "http://www.Example.com/About".data ∧
    domNormalFixed (normalizeDomainDU "  HTTPS://www.Acme.IO/x  ".data) ∧
    normalizeDomainDU (normalizeDomainDU "  HTTPS://www.Acme.IO/x  ".data) =
      normalizeDomainDU "  HTTPS://www.Acme.IO/x  ".data :=
  ⟨by decide,
   (claim6_idempotent_on_normal_forms "http://www.Example.com/About".data).1 (by decide),
   by decide,
   (claim6_idempotent_on_normal_forms "  HTTPS://www.Acme.IO/x  ".data).2 (by decide)⟩

/-- C2 counterexample: one session whose minimum-wait timer has not fired
re-enters the success path with the same key and payload and performs a
second storage write, because the latch is only set on navigation. -/
theorem claim2_counterexample :
    (handleSuccessfulPlan planPayloadA rawPayloadA "t0".data sessionA []).2.length = 1 ∧
    (handleSuccessfulPlan planPayloadA rawPayloadA "t0".data
        (handleSuccessfulPlan planPayloadA rawPayloadA "t0".data sessionA []).1
        (handleSuccessfulPlan planPayloadA rawPayloadA "t0".data sessionA []).2).2.length = 2 :=
  ⟨rfl, rfl⟩

/-- C2 (amended): the latch (`hasNavigated`) is checked before every save
but is set only when the navigation conditions, including the
minimum-wait timer, hold. Once set, re-entering the success path performs
no further write and leaves the session unchanged; a first entry with the
timer satisfied saves once and sets the latch; and two sessions with their
own keys each append their own row. -/
theorem claim2_save_latch :
    (∀ p r now s st, s.hasNavigated = true →
      handleSuccessfulPlan p r now s st = (s, st)) ∧
    (∀ p r now s st, s.hasNavigated = false → s.minimumTimeReached = true →
      s.latestDomain.isEmpty = false → s.email.isEmpty = false →
      validPlanPayload p = true →
      (handleSuccessfulPlan p r now s st).1.hasNavigated = true ∧
      (handleSuccessfulPlan p r now s st).2.length = st.length + 1) ∧
    (∀ p r now s1 s2, s1.hasNavigated = false → s2.hasNavigated = false →
      s1.latestDomain.isEmpty = false → s1.email.isEmpty = false →
      s2.latestDomain.isEmpty = false → s2.email.isEmpty = false →
      validPlanPayload p = true →
      (handleSuccessfulPlan p r now s2
          (handleSuccessfulPlan p r now s1 []).2).2.map (fun row => row.company_domain) =
        [s1.latestDomain, s2.latestDomain]) := by
  have hcomp : ∀ p, validPlanPayload p = true →
      truthy p = true ∧ isEmptyObject p = false ∧
      truthy (getField p "company_summary".data) = true ∧
      truthy (getField p "programs_list".data) = true ∧
      (isArray (getField p "programs_list".data) &&
        decide ((elemsOf (getField p "programs_list".data)).length = 0)) = false := by
    intro p hv
    simp only [validPlanPayload, Bool.and_eq_true, Bool.not_eq_true'] at hv
    tauto
  refine ⟨?_, ?_, ?_⟩
  · intro p r now s st hn
    simp [handleSuccessfulPlan, hn]
  · intro p r now s st hn hm hd he hv
    obtain ⟨h1, h2, h3, h4, h5⟩ := hcomp p hv
    simp [handleSuccessfulPlan, saveMarketingPlan, hn, hm, hd, he, h1, h2, h3, h4, h5]
  · intro p r now s1 s2 hn1 hn2 hd1 he1 hd2 he2 hv
    obtain ⟨h1, h2, h3, h4, h5⟩ := hcomp p hv
    simp [handleSuccessfulPlan, saveMarketingPlan, hn1, hn2, hd1, he1, hd2, he2,
      h1, h2, h3, h4, h5]

/-- C2 witness: with the minimum-wait timer satisfied, one concrete
session saves exactly once and latches. -/
theorem claim2_witness :
    (handleSuccessfulPlan planPayloadA rawPayloadA "t0".data
      { sessionA with minimumTimeReached := true } []).1.hasNavigated = true ∧
    (handleSuccessfulPlan planPayloadA rawPayloadA "t0".data
      { sessionA with minimumTimeReached := true } []).2.length = 1 :=
  claim2_save_latch.2.1 planPayloadA rawPayloadA "t0".data
    { sessionA with minimumTimeReached := true } [] rfl rfl rfl rfl (by decide)

/-- When the fetched results are never classified complete, the attempt
loop runs to the cap, sets `timeout`, and fires the max-attempts callback
exactly once. -/
theorem executePollAux_timeout (fetch : Nat → Except (List Char) Json)
    (hfetch : ∀ n r, fetch n = .ok r → isCompletedResponse r = false) :
    ∀ fuel attempt acc, attempt + fuel = 31 → 1 ≤ attempt → attempt ≤ 30 →
      (executePollAux fetch (fun _ => true) 30 fuel attempt acc).status = PollStatus.timeout ∧
      (executePollAux fetch (fun _ => true) 30 fuel attempt acc).onMaxCount =
        acc.onMaxCount + 1 ∧
      (executePollAux fetch (fun _ => true) 30 fuel attempt acc).attempts =
        acc.attempts + fuel := by
  intro fuel
  induction fuel with
  | zero =>
    intro attempt acc h1 h2 h3
    omega
  | succ fuel ih =>
    intro attempt acc h1 h2 h3
    cases hf : fetch attempt with
    | ok result =>
      have hcomp : isCompletedResponse result = false := hfetch attempt result hf
      by_cases hcap : (30 : Nat) ≤ attempt
      · have hfuel : fuel = 0 := by omega
        subst hfuel
        refine ⟨?_, ?_, ?_⟩ <;> simp [executePollAux, hf, hcomp, hcap]
      · have step : executePollAux fetch (fun _ => true) 30 (fuel + 1) attempt acc =
            executePollAux fetch (fun _ => true) 30 fuel (attempt + 1)
              { acc with attempts := acc.attempts + 1, status := PollStatus.polling,
                         hasSuccessfulResponse := acc.hasSuccessfulResponse || false } := by
          simp [executePollAux, hf, hcomp, hcap]
        rw [step]
        have h := ih (attempt + 1)
          { acc with attempts := acc.attempts + 1, status := PollStatus.polling,
                     hasSuccessfulResponse := acc.hasSuccessfulResponse || false }
          (by omega) (by omega) (by omega)
        refine ⟨h.1, ?_, ?_⟩
        · rw [h.2.1]
        · rw [h.2.2]
          simp only []
          show acc.attempts + 1 + fuel = acc.attempts + (fuel + 1)
          omega
    | error e =>
      by_cases hcap : (30 : Nat) ≤ attempt
      · have hfuel : fuel = 0 := by omega
        subst hfuel
        refine ⟨?_, ?_, ?_⟩ <;> simp [executePollAux, hf, hcap]
      · have step : executePollAux fetch (fun _ => true) 30 (fuel + 1) attempt acc =
            executePollAux fetch (fun _ => true) 30 fuel (attempt + 1)
              { acc with attempts := acc.attempts + 1, status := PollStatus.error,
                         onErrorCount := acc.onErrorCount + 1 } := by
          simp [executePollAux, hf, hcap]
        rw [step]
        have h := ih (attempt + 1)
          { acc with attempts := acc.attempts + 1, status := PollStatus.error,
                     onErrorCount := acc.onErrorCount + 1 }
          (by omega) (by omega) (by omega)
        refine ⟨h.1, ?_, ?_⟩
        · rw [h.2.1]
        · rw [h.2.2]
          simp only []
          show acc.attempts + 1 + fuel = acc.attempts + (fuel + 1)
          omega

/-- C7: when the injected fetch function never yields a complete response,
a session with the configured 30-attempt cap ends with status `timeout`,
fires `onMaxAttemptsReached` exactly once, and executes exactly 30
attempts with none scheduled afterwards. -/
theorem claim7_timeout_after_max_attempts (fetch : Nat → Except (List Char) Json)
    (hfetch : ∀ n r, fetch n = .ok r → isCompletedResponse r = false) :
    (executePollRun fetch (fun _ => true) 30).status = PollStatus.timeout ∧
    (executePollRun fetch (fun _ => true) 30).onMaxCount = 1 ∧
    (executePollRun fetch (fun _ => true) 30).attempts = 30 := by
  have h := executePollAux_timeout fetch hfetch 30 1
    { status := .polling, attempts := 0, onSuccessCount := 0,
      onErrorCount := 0, onMaxCount := 0, hasSuccessfulResponse := false }
    (by omega) (by omega) (by omega)
  simpa [executePollRun] using h

/-- C7 witness: the timeout theorem applied to a fetch function that
always returns a `running` status payload. -/
theorem claim7_witness :
    (executePollRun (fun _ => Except.ok (Json.obj [("status".data, Json.str "running".data)]))
      (fun _ => true) 30).status = PollStatus.timeout ∧
    (executePollRun (fun _ => Except.ok (Json.obj [("status".data, Json.str "running".data)]))
      (fun _ => true) 30).onMaxCount = 1 ∧
    (executePollRun (fun _ => Except.ok (Json.obj [("status".data, Json.str "running".data)]))
      (fun _ => true) 30).attempts = 30 :=
  claim7_timeout_after_max_attempts _
    (fun n r h => by
      injection h with h2
      rw [← h2]
      decide)
